import Mathlib

/-!
Shallow embedding of `make_img.py` (QRITTERS): a Conway-style Game of Life
on a fixed-size toroidal grid.  Numpy 2-D integer arrays are embedded as
`List (List Nat)`; `np.roll` along an axis, elementwise addition, and the
fancy-indexing rule lookup `rules[grid, num_neighbors]` are embedded as the
corresponding list operations.
-/

namespace QRITTERS

/-- A numpy 2-D integer array: a list of rows. -/
abbrev Grid := List (List Nat)

/-- Number of rows (axis-0 size). -/
def height (g : Grid) : Nat := g.length

/-- Number of columns (axis-1 size), read off the first row. -/
def width (g : Grid) : Nat := (g.headD []).length

/-- Read cell `(r, c)`; out-of-range reads default to `0` (in-bounds use is
proved where needed). -/
def cell (g : Grid) (r c : Nat) : Nat := (g.getD r []).getD c 0

/-- Shape predicate: `g` is a rectangular `H × W` array. -/
def Dims (g : Grid) (H W : Nat) : Prop :=
  g.length = H ∧ ∀ row ∈ g, row.length = W

instance (g : Grid) (H W : Nat) : Decidable (Dims g H W) := by
  unfold Dims
  infer_instance

/-- Source line 8: `GRID_SIZE = 100`. -/
def GRID_SIZE : Nat := 100

/-- Source line 29: `rules = np.array([[0,0,0,1,0,0,0,0,0],[0,0,1,1,0,0,0,0,0]])`. -/
def rules : List (List Nat) :=
  [[0,0,0,1,0,0,0,0,0],[0,0,1,1,0,0,0,0,0]]

/-- Scalar rule lookup `rules[s][n]`, the elementwise meaning of the numpy
fancy indexing `rules[grid, num_neighbors]` at one cell. -/
def ruleLookup (s n : Nat) : Nat := (rules.getD s []).getD n 0

/-- Source: `np.roll(g, s, 0)` — cyclic shift of the rows by `s`:
`result[r] = g[(r - s) mod H]`. -/
def rollRows (g : Grid) (s : Int) : Grid :=
  (List.range g.length).map fun (r : Nat) =>
    g.getD (((r : Int) - s).emod g.length).toNat []

/-- Source: `np.roll(g, s, 1)` — cyclic shift of each row by `s`:
`result[r][c] = g[r][(c - s) mod W]`. -/
def rollCols (g : Grid) (s : Int) : Grid :=
  g.map fun row =>
    (List.range row.length).map fun (c : Nat) =>
      row.getD (((c : Int) - s).emod row.length).toNat 0

/-- Elementwise addition of two 2-D arrays (numpy `+`). -/
def add2 (a b : Grid) : Grid := List.zipWith (List.zipWith (· + ·)) a b

/-- Source lines 53–54: the four orthogonal (von Neumann) neighbor layers. -/
def vonNeumannNeighbors (g : Grid) : Grid :=
  add2 (add2 (rollRows g 1) (rollRows g (-1)))
       (add2 (rollCols g 1) (rollCols g (-1)))

/-- Source lines 56–57: the four diagonal neighbor layers. -/
def diagNeighbors (g : Grid) : Grid :=
  add2 (add2 (rollCols (rollRows g 1) 1) (rollCols (rollRows g 1) (-1)))
       (add2 (rollCols (rollRows g (-1)) 1) (rollCols (rollRows g (-1)) (-1)))

/-- Source line 58: `num_neighbors = von_neumann_neighbors + diag_neighbors`. -/
def numNeighbors (g : Grid) : Grid :=
  add2 (vonNeumannNeighbors g) (diagNeighbors g)

/-- Source line 60: `grid = rules[grid, num_neighbors]` — one synchronous step. -/
def step (g : Grid) : Grid :=
  List.zipWith (List.zipWith ruleLookup) g (numNeighbors g)

/-- Spec reference count: the sum of the 8 Moore-neighborhood cells with row
and column indices taken modulo the grid height and width (toroidal wrap).
Stated from the spec's words, to be compared with `numNeighbors`. -/
def mooreRef (g : Grid) (r c : Nat) : Nat :=
  cell g ((r + height g - 1) % height g) c +
  cell g ((r + 1) % height g) c +
  cell g r ((c + width g - 1) % width g) +
  cell g r ((c + 1) % width g) +
  cell g ((r + height g - 1) % height g) ((c + width g - 1) % width g) +
  cell g ((r + height g - 1) % height g) ((c + 1) % width g) +
  cell g ((r + 1) % height g) ((c + width g - 1) % width g) +
  cell g ((r + 1) % height g) ((c + 1) % width g)

/-- Spec reference stepper: every cell's next state is the rule applied to
its own pre-step state and its pre-step toroidal Moore count.  Stated from
the spec's words, to be compared with `step`. -/
def syncStep (g : Grid) : Grid :=
  (List.range (height g)).map fun r =>
    (List.range (width g)).map fun c =>
      ruleLookup (cell g r c) (mooreRef g r c)

/-- A grid whose only live cells are the 2×2 block with top-left corner
`(r0, c0)`. -/
def blockGrid (H W r0 c0 : Nat) : Grid :=
  (List.range H).map fun r =>
    (List.range W).map fun c =>
      if (r = r0 ∨ r = r0 + 1) ∧ (c = c0 ∨ c = c0 + 1) then 1 else 0

/-- Row (or column) indicator of the 2×2 block starting at `r0`: 1 on the
two block lines, 0 elsewhere. -/
def indBlock (r0 i : Nat) : Nat := if i = r0 ∨ i = r0 + 1 then 1 else 0

/-- Source line 12: `valid_patterns = ["SHUTTLES", "BRAIN"]`. -/
def valid_patterns : List String := ["SHUTTLES", "BRAIN"]

/-- Outcome of the argument-checking prologue (source lines 13–22): either
the process exits — `sys.exit()` with no argument, i.e. exit code 0 — after
printing the valid pattern list, or the run proceeds with the chosen
pattern. -/
inductive ArgResult where
  | exit (code : Nat) (printedPatterns : List String)
  | run (pattern : String)
  deriving DecidableEq

/-- Source lines 13–22: `args = sys.argv`; if `len(args) != 2` or
`args[1].upper() not in valid_patterns`, print the valid patterns and call
`sys.exit()` (exit code 0); otherwise `PATTERN = args[1].upper()`. -/
def parseArgs (args : List String) : ArgResult :=
  if args.length ≠ 2 then .exit 0 valid_patterns
  else if ¬ valid_patterns.contains (args.getD 1 "").toUpper then
    .exit 0 valid_patterns
  else .run (args.getD 1 "").toUpper

/-- Numpy basic integer indexing on an axis of size `n`: an index `i` with
`-n ≤ i < n` is accepted, negative values meaning `i + n`; anything else
raises `IndexError` (modelled as `none`). -/
def npIndex (n : Nat) (i : Int) : Option Nat :=
  if 0 ≤ i ∧ i < (n : Int) then some i.toNat
  else if -(n : Int) ≤ i ∧ i < 0 then some (i + n).toNat
  else none

/-- Source line 95: `grid[i, j] = 1` — set one cell to ALIVE through numpy
integer indexing; `none` models the `IndexError` raised on an index outside
`[-n, n)`. -/
def setCell (g : Grid) (i j : Int) : Option Grid :=
  match npIndex (height g) i, npIndex (width g) j with
  | some r, some c => some (g.set r ((g.getD r []).set c 1))
  | _, _ => none

/-- Source lines 94–95: `for i,j in init_cells: grid[i, j] = 1` — seed every
catalog coordinate, propagating an `IndexError` if one occurs. -/
def seedCells (g : Grid) : List (Nat × Nat) → Option Grid
  | [] => some g
  | (i, j) :: rest =>
    match setCell g (i : Int) (j : Int) with
    | some g2 => seedCells g2 rest
    | none => none

/-- Source line 37: the initial all-zero `GRID_SIZE × GRID_SIZE` grid
(`np.random.choice([0], ...)` with `p=[1]` always draws 0). -/
def initGrid (n : Nat) : Grid := List.replicate n (List.replicate n 0)

/-- Source lines 66–68: `shuttle_cells`. -/
def shuttle_cells : List (Nat × Nat) :=
  [(48,33),(48,34),(49,33),(49,34),(53,38),(53,39),(53,40),
   (48,66),(48,67),(49,66),(49,67),(53,60),(53,61),(53,62),
   (54,49),(53,49),(52,49),(52,50),(52,51),(53,51),(54,51)]

/-- Source lines 69–79: `brain_cells`. -/
def brain_cells : List (Nat × Nat) :=
  [(45,43),(45,44),(45,45),(45,55),(45,56),(45,57),
   (46,42),(46,44),(46,46),(46,47),(46,53),(46,54),(46,56),(46,58),
   (47,42),(47,44),(47,46),(47,54),(47,56),(47,58),
   (48,43),(48,45),(48,46),(48,48),(48,49),(48,51),(48,52),(48,54),(48,55),(48,57),
   (49,47),(49,49),(49,51),(49,53),
   (50,45),(50,47),(50,49),(50,51),(50,53),(50,55),
   (51,44),(51,45),(51,47),(51,49),(51,51),(51,53),(51,55),(51,56),
   (52,44),(52,45),(52,46),(52,49),(52,51),(52,54),(52,55),(52,56),
   (53,44),(53,45),(53,48),(53,52),(53,55),(53,56),
   (54,43),(54,48),(54,49),(54,51),(54,52),(54,57),
   (55,43),(55,57)]

/-- A small concrete grid used to instantiate general theorems: a single
live cell at the origin of a 2×2 grid. -/
def sampleGrid : Grid := [[1, 0], [0, 0]]

/-- The `n`-fold iterate of `step`. -/
def stepIter : Nat → Grid → Grid
  | 0, g => g
  | n + 1, g => stepIter n (step g)

/-- The frame loop (source lines 48–62 and 98): `FuncAnimation` ticks the
callback `animate_life` once per frame; each invocation first replaces the
global grid by `step grid` and only then emits the updated grid
(`im.set_data(grid)`).  `runFrames g F` is the list of emitted frames for
`F` ticks starting from seed grid `g`. -/
def runFrames (g : Grid) : Nat → List Grid
  | 0 => []
  | n + 1 => step g :: runFrames (step g) n

end QRITTERS

namespace QRITTERS

/-! Helper lemmas: index arithmetic and shapes. -/

theorem toNat_emod_lt {H : Nat} (hH : 0 < H) (x : Int) : (x.emod H).toNat < H := by
  have h1 : 0 ≤ x.emod H := Int.emod_nonneg x (by exact_mod_cast hH.ne')
  have h2 : x.emod H < H := Int.emod_lt_of_pos x (by exact_mod_cast hH)
  omega

theorem toNat_emod_sub_one {H r : Nat} (hr : r < H) :
    (((r : Int) - 1).emod H).toNat = (r + H - 1) % H := by
  have h1 : ((r : Int) - 1).emod H = ((r : Int) - 1 + H).emod H := by
    rw [show ((r : Int) - 1 + H) = (r : Int) - 1 + (H : Int) * 1 by ring]
    exact (Int.add_mul_emod_self_left _ _ _).symm
  have h2 : ((r : Int) - 1 + H) = (((r + H - 1 : Nat)) : Int) := by omega
  rw [h1, h2, show ((r + H - 1 : Nat) : Int).emod H = (((r + H - 1) % H : Nat) : Int)
    from (Int.ofNat_emod _ _).symm]
  exact Int.toNat_natCast _

theorem toNat_emod_add_one (H r : Nat) :
    (((r : Int) + 1).emod H).toNat = (r + 1) % H := by
  have h2 : ((r : Int) + 1) = (((r + 1 : Nat)) : Int) := by omega
  rw [h2, show ((r + 1 : Nat) : Int).emod H = (((r + 1) % H : Nat) : Int)
    from (Int.ofNat_emod _ _).symm]
  exact Int.toNat_natCast _

theorem length_rollRows (g : Grid) (s : Int) : (rollRows g s).length = g.length := by
  simp [rollRows]

theorem length_rollCols (g : Grid) (s : Int) : (rollCols g s).length = g.length := by
  simp [rollCols]

theorem dims_rollRows {g : Grid} {H W : Nat} (s : Int) (hd : Dims g H W) :
    Dims (rollRows g s) H W := by
  obtain ⟨hH, hW⟩ := hd
  refine ⟨by simp [rollRows, hH], ?_⟩
  intro row hrow
  simp only [rollRows, List.mem_map] at hrow
  obtain ⟨r, hr, rfl⟩ := hrow
  rw [List.mem_range] at hr
  have hpos : 0 < g.length := by omega
  have hk : (((r : Int) - s).emod g.length).toNat < g.length := toNat_emod_lt hpos _
  rw [List.getD_eq_getElem _ _ hk]
  exact hW _ (List.getElem_mem hk)

theorem dims_rollCols {g : Grid} {H W : Nat} (s : Int) (hd : Dims g H W) :
    Dims (rollCols g s) H W := by
  obtain ⟨hH, hW⟩ := hd
  refine ⟨by simp [rollCols, hH], ?_⟩
  intro row hrow
  simp only [rollCols, List.mem_map] at hrow
  obtain ⟨row0, hrow0, rfl⟩ := hrow
  simp [hW row0 hrow0]

theorem dims_zipWith2 (f : Nat → Nat → Nat) {a b : Grid} {H W : Nat}
    (ha : Dims a H W) (hb : Dims b H W) :
    Dims (List.zipWith (List.zipWith f) a b) H W := by
  refine ⟨by simp [List.length_zipWith, ha.1, hb.1], ?_⟩
  intro row hrow
  rw [List.mem_iff_getElem] at hrow
  obtain ⟨i, hi, rfl⟩ := hrow
  rw [List.length_zipWith] at hi
  have h1 := ha.1
  have h2 := hb.1
  have hia : i < a.length := by omega
  have hib : i < b.length := by omega
  rw [List.getElem_zipWith, List.length_zipWith,
    ha.2 _ (List.getElem_mem hia), hb.2 _ (List.getElem_mem hib)]
  simp

theorem dims_add2 {a b : Grid} {H W : Nat} (ha : Dims a H W) (hb : Dims b H W) :
    Dims (add2 a b) H W :=
  dims_zipWith2 _ ha hb

theorem dims_numNeighbors {g : Grid} {H W : Nat} (hd : Dims g H W) :
    Dims (numNeighbors g) H W := by
  unfold numNeighbors vonNeumannNeighbors diagNeighbors
  exact dims_add2
    (dims_add2 (dims_add2 (dims_rollRows _ hd) (dims_rollRows _ hd))
      (dims_add2 (dims_rollCols _ hd) (dims_rollCols _ hd)))
    (dims_add2
      (dims_add2 (dims_rollCols _ (dims_rollRows _ hd)) (dims_rollCols _ (dims_rollRows _ hd)))
      (dims_add2 (dims_rollCols _ (dims_rollRows _ hd)) (dims_rollCols _ (dims_rollRows _ hd))))

theorem dims_step {g : Grid} {H W : Nat} (hd : Dims g H W) : Dims (step g) H W :=
  dims_zipWith2 _ hd (dims_numNeighbors hd)

theorem width_of_dims {g : Grid} {H W : Nat} (hd : Dims g H W) (hH : 0 < H) :
    width g = W := by
  obtain ⟨h1, h2⟩ := hd
  have hg : 0 < g.length := by omega
  unfold width
  rw [List.headD_eq_head?, List.head?_eq_getElem?, List.getElem?_eq_getElem hg]
  simp only [Option.getD_some]
  exact h2 _ (List.getElem_mem hg)

theorem cell_rollRows (g : Grid) (s : Int) {r : Nat} (c : Nat) (hr : r < g.length) :
    cell (rollRows g s) r c = cell g (((r : Int) - s).emod g.length).toNat c := by
  have h1 : (rollRows g s).getD r [] =
      g.getD (((r : Int) - s).emod g.length).toNat [] := by
    unfold rollRows
    rw [List.getD_eq_getElem _ _ (by simpa using hr)]
    simp only [List.getElem_map, List.getElem_range]
  unfold cell
  rw [h1]

theorem cell_rollCols {g : Grid} {H W : Nat} (s : Int) {r c : Nat}
    (hd : Dims g H W) (hr : r < H) (hc : c < W) :
    cell (rollCols g s) r c = cell g r (((c : Int) - s).emod W).toNat := by
  have hr' : r < g.length := by rw [hd.1]; exact hr
  have hlen : (g[r]).length = W := hd.2 _ (List.getElem_mem hr')
  have h1 : (rollCols g s).getD r [] =
      (List.range (g[r]).length).map (fun (c : Nat) =>
        (g[r]).getD (((c : Int) - s).emod (g[r]).length).toNat 0) := by
    unfold rollCols
    rw [List.getD_eq_getElem _ _ (by simpa using hr')]
    simp only [List.getElem_map]
  have h2 : ((List.range (g[r]).length).map (fun (c : Nat) =>
      (g[r]).getD (((c : Int) - s).emod (g[r]).length).toNat 0)).getD c 0 =
      (g[r]).getD (((c : Int) - s).emod W).toNat 0 := by
    rw [List.getD_eq_getElem _ _ (by simpa [hlen] using hc)]
    simp only [List.getElem_map, List.getElem_range, hlen]
  unfold cell
  rw [h1, h2, List.getD_eq_getElem _ _ hr']

theorem cell_zipWith2 (f : Nat → Nat → Nat) {a b : Grid} {H W : Nat}
    (ha : Dims a H W) (hb : Dims b H W) {r c : Nat} (hr : r < H) (hc : c < W) :
    cell (List.zipWith (List.zipWith f) a b) r c = f (cell a r c) (cell b r c) := by
  have hra : r < a.length := by rw [ha.1]; exact hr
  have hrb : r < b.length := by rw [hb.1]; exact hr
  have hla : (a[r]).length = W := ha.2 _ (List.getElem_mem hra)
  have hlb : (b[r]).length = W := hb.2 _ (List.getElem_mem hrb)
  have hca : c < (a[r]).length := by rw [hla]; exact hc
  have hcb : c < (b[r]).length := by rw [hlb]; exact hc
  have h1 : (List.zipWith (List.zipWith f) a b).getD r [] =
      List.zipWith f (a[r]) (b[r]) := by
    rw [List.getD_eq_getElem _ _ (by rw [List.length_zipWith]; omega)]
    rw [List.getElem_zipWith]
  have h2 : (List.zipWith f (a[r]) (b[r])).getD c 0 = f (a[r][c]) (b[r][c]) := by
    rw [List.getD_eq_getElem _ _ (by rw [List.length_zipWith]; omega)]
    rw [List.getElem_zipWith]
  calc cell (List.zipWith (List.zipWith f) a b) r c
      = (List.zipWith f (a[r]) (b[r])).getD c 0 := by unfold cell; rw [h1]
    _ = f (a[r][c]) (b[r][c]) := h2
    _ = f (cell a r c) (cell b r c) := by
        unfold cell
        rw [List.getD_eq_getElem a [] hra, List.getD_eq_getElem b [] hrb,
          List.getD_eq_getElem _ _ hca, List.getD_eq_getElem _ _ hcb]

theorem cell_add2 {a b : Grid} {H W : Nat} (ha : Dims a H W) (hb : Dims b H W)
    {r c : Nat} (hr : r < H) (hc : c < W) :
    cell (add2 a b) r c = cell a r c + cell b r c := by
  unfold add2
  exact cell_zipWith2 _ ha hb hr hc

theorem cell_rollRows_one {g : Grid} {H W : Nat} (hd : Dims g H W) {r : Nat}
    (c : Nat) (hr : r < H) :
    cell (rollRows g 1) r c = cell g ((r + H - 1) % H) c := by
  have hr' : r < g.length := by rw [hd.1]; exact hr
  rw [cell_rollRows g 1 c hr', hd.1, toNat_emod_sub_one hr]

theorem cell_rollRows_negOne {g : Grid} {H W : Nat} (hd : Dims g H W) {r : Nat}
    (c : Nat) (hr : r < H) :
    cell (rollRows g (-1)) r c = cell g ((r + 1) % H) c := by
  have hr' : r < g.length := by rw [hd.1]; exact hr
  rw [cell_rollRows g (-1) c hr', sub_neg_eq_add, hd.1, toNat_emod_add_one]

theorem cell_rollCols_one {g : Grid} {H W : Nat} (hd : Dims g H W) {r c : Nat}
    (hr : r < H) (hc : c < W) :
    cell (rollCols g 1) r c = cell g r ((c + W - 1) % W) := by
  rw [cell_rollCols 1 hd hr hc, toNat_emod_sub_one hc]

theorem cell_rollCols_negOne {g : Grid} {H W : Nat} (hd : Dims g H W) {r c : Nat}
    (hr : r < H) (hc : c < W) :
    cell (rollCols g (-1)) r c = cell g r ((c + 1) % W) := by
  rw [cell_rollCols (-1) hd hr hc, sub_neg_eq_add, toNat_emod_add_one]

theorem cell_numNeighbors {g : Grid} {H W : Nat} (hd : Dims g H W) {r c : Nat}
    (hr : r < H) (hc : c < W) :
    cell (numNeighbors g) r c = mooreRef g r c := by
  have hH : 0 < H := by omega
  have hdR1 : Dims (rollRows g 1) H W := dims_rollRows _ hd
  have hdR2 : Dims (rollRows g (-1)) H W := dims_rollRows _ hd
  have hdC1 : Dims (rollCols g 1) H W := dims_rollCols _ hd
  have hdC2 : Dims (rollCols g (-1)) H W := dims_rollCols _ hd
  have hdD1 : Dims (rollCols (rollRows g 1) 1) H W := dims_rollCols _ hdR1
  have hdD2 : Dims (rollCols (rollRows g 1) (-1)) H W := dims_rollCols _ hdR1
  have hdD3 : Dims (rollCols (rollRows g (-1)) 1) H W := dims_rollCols _ hdR2
  have hdD4 : Dims (rollCols (rollRows g (-1)) (-1)) H W := dims_rollCols _ hdR2
  unfold numNeighbors vonNeumannNeighbors diagNeighbors
  rw [cell_add2 (dims_add2 (dims_add2 hdR1 hdR2) (dims_add2 hdC1 hdC2))
      (dims_add2 (dims_add2 hdD1 hdD2) (dims_add2 hdD3 hdD4)) hr hc,
    cell_add2 (dims_add2 hdR1 hdR2) (dims_add2 hdC1 hdC2) hr hc,
    cell_add2 (dims_add2 hdD1 hdD2) (dims_add2 hdD3 hdD4) hr hc,
    cell_add2 hdR1 hdR2 hr hc, cell_add2 hdC1 hdC2 hr hc,
    cell_add2 hdD1 hdD2 hr hc, cell_add2 hdD3 hdD4 hr hc]
  rw [cell_rollRows_one hd c hr, cell_rollRows_negOne hd c hr,
    cell_rollCols_one hd hr hc, cell_rollCols_negOne hd hr hc,
    cell_rollCols_one hdR1 hr hc, cell_rollCols_negOne hdR1 hr hc,
    cell_rollCols_one hdR2 hr hc, cell_rollCols_negOne hdR2 hr hc,
    cell_rollRows_one hd ((c + W - 1) % W) hr, cell_rollRows_one hd ((c + 1) % W) hr,
    cell_rollRows_negOne hd ((c + W - 1) % W) hr, cell_rollRows_negOne hd ((c + 1) % W) hr]
  unfold mooreRef height
  rw [hd.1, width_of_dims hd hH]
  omega

theorem cell_step {g : Grid} {H W : Nat} (hd : Dims g H W) {r c : Nat}
    (hr : r < H) (hc : c < W) :
    cell (step g) r c = ruleLookup (cell g r c) (mooreRef g r c) := by
  unfold step
  rw [cell_zipWith2 _ hd (dims_numNeighbors hd) hr hc, cell_numNeighbors hd hr hc]

theorem getElem_eq_cell {g : Grid} {i j : Nat} (hi : i < g.length)
    (hj : j < (g[i]).length) : g[i][j] = cell g i j := by
  unfold cell
  rw [List.getD_eq_getElem _ _ hi, List.getD_eq_getElem _ _ hj]

theorem ruleLookup_bit (s n : Nat) : ruleLookup s n = 0 ∨ ruleLookup s n = 1 := by
  unfold ruleLookup
  rcases Nat.lt_or_ge s 2 with hs | hs
  · rcases Nat.lt_or_ge n 9 with hn | hn
    · interval_cases s <;> interval_cases n <;> simp [rules]
    · left
      have h : (rules.getD s []).length ≤ n := by
        interval_cases s <;> simp [rules] <;> omega
      exact List.getD_eq_default _ _ h
  · left
    have h : rules.length ≤ s := by simp [rules]; omega
    rw [List.getD_eq_default _ _ h]
    rfl

/-- Claim C1 -/
theorem rules_encode_conway (n : Nat) (hn : n ≤ 8) :
    (ruleLookup 0 n = 1 ↔ n = 3) ∧
    (ruleLookup 1 n = 1 ↔ n = 2 ∨ n = 3) ∧
    (ruleLookup 0 n = 0 ∨ ruleLookup 0 n = 1) ∧
    (ruleLookup 1 n = 0 ∨ ruleLookup 1 n = 1) := by
  interval_cases n <;> decide

/-- Witness for C1 at `n = 3`. -/
theorem rules_encode_conway_witness :
    (ruleLookup 0 3 = 1 ↔ (3 : Nat) = 3) ∧
    (ruleLookup 1 3 = 1 ↔ (3 : Nat) = 2 ∨ (3 : Nat) = 3) ∧
    (ruleLookup 0 3 = 0 ∨ ruleLookup 0 3 = 1) ∧
    (ruleLookup 1 3 = 0 ∨ ruleLookup 1 3 = 1) :=
  rules_encode_conway 3 (by decide)

/-- Claim C2: on every rectangular grid, the stepper's neighbor count at an
in-range cell equals the modulo-indexed toroidal Moore-neighborhood sum,
and a live cell at `(0,0)` is counted as a neighbor of `(H-1, W-1)`,
`(H-1, 0)` and `(0, W-1)`. -/
theorem neighbor_count_toroidal {g : Grid} {H W : Nat} (hd : Dims g H W)
    {r c : Nat} (hr : r < H) (hc : c < W) :
    cell (numNeighbors g) r c = mooreRef g r c ∧
    (cell g 0 0 = 1 →
      1 ≤ cell (numNeighbors g) (H - 1) (W - 1) ∧
      1 ≤ cell (numNeighbors g) (H - 1) 0 ∧
      1 ≤ cell (numNeighbors g) 0 (W - 1)) := by
  have hH : 0 < H := by omega
  have hWp : 0 < W := by omega
  have hh : height g = H := hd.1
  have hw : width g = W := width_of_dims hd hH
  have k1 : (H - 1 + 1) % H = 0 := by
    rw [show H - 1 + 1 = H by omega]
    exact Nat.mod_self H
  have k2 : (W - 1 + 1) % W = 0 := by
    rw [show W - 1 + 1 = W by omega]
    exact Nat.mod_self W
  refine ⟨cell_numNeighbors hd hr hc, fun h00 => ⟨?_, ?_, ?_⟩⟩
  · rw [cell_numNeighbors hd (show H - 1 < H by omega) (show W - 1 < W by omega)]
    unfold mooreRef
    rw [hh, hw, k1, k2]
    omega
  · rw [cell_numNeighbors hd (show H - 1 < H by omega) hWp]
    unfold mooreRef
    rw [hh, hw, k1]
    omega
  · rw [cell_numNeighbors hd hH (show W - 1 < W by omega)]
    unfold mooreRef
    rw [hh, hw, k2]
    omega

/-- Witness for C2 on the 2×2 grid with a single live cell at the origin. -/
theorem neighbor_count_toroidal_witness :
    cell (numNeighbors sampleGrid) 0 0 = mooreRef sampleGrid 0 0 ∧
    (cell sampleGrid 0 0 = 1 →
      1 ≤ cell (numNeighbors sampleGrid) (2 - 1) (2 - 1) ∧
      1 ≤ cell (numNeighbors sampleGrid) (2 - 1) 0 ∧
      1 ≤ cell (numNeighbors sampleGrid) 0 (2 - 1)) :=
  neighbor_count_toroidal (H := 2) (W := 2) (by decide) (by decide) (by decide)

/-- Claim C3: the step operation equals the reference synchronous update,
whose every cell is a function of the pre-step grid only. -/
theorem step_is_synchronous {g : Grid} {H W : Nat} (hd : Dims g H W) :
    step g = syncStep g := by
  have hds := dims_step hd
  have hh : height g = H := hd.1
  rcases Nat.eq_zero_or_pos H with hH0 | hH
  · have hl : g.length = H := hd.1
    have hg : g = [] := List.length_eq_zero.mp (by omega)
    subst hg
    rfl
  · have hw : width g = W := width_of_dims hd hH
    apply List.ext_getElem
    · rw [hds.1]
      simp [syncStep, hh]
    · intro i h1 h2
      have hi : i < H := by rw [hds.1] at h1; exact h1
      apply List.ext_getElem
      · have l1 : ((step g)[i]).length = W := hds.2 _ (List.getElem_mem h1)
        rw [l1]
        simp [syncStep, hw]
      · intro j hj1 hj2
        have hjW : j < W := by
          have l1 : ((step g)[i]).length = W := hds.2 _ (List.getElem_mem h1)
          omega
        have eL : (step g)[i][j] = ruleLookup (cell g i j) (mooreRef g i j) := by
          rw [getElem_eq_cell h1 hj1]
          exact cell_step hd hi hjW
        have eR : (syncStep g)[i][j] = ruleLookup (cell g i j) (mooreRef g i j) := by
          simp [syncStep]
        rw [eL, eR]

/-- Witness for C3 on the 2×2 grid with a single live cell at the origin. -/
theorem step_is_synchronous_witness : step sampleGrid = syncStep sampleGrid :=
  step_is_synchronous (H := 2) (W := 2) (by decide)

/-- Claim C4: on a rectangular 0/1 grid, neighbor counts lie in `[0, 8]`,
the rule-table indices lie within the 2×9 table, and the stepped grid is
again a 0/1 grid of the same dimensions. -/
theorem step_safety {g : Grid} {H W : Nat} (hd : Dims g H W)
    (hbits : ∀ r, r < H → ∀ c, c < W → cell g r c = 0 ∨ cell g r c = 1)
    {r c : Nat} (hr : r < H) (hc : c < W) :
    mooreRef g r c ≤ 8 ∧
    cell g r c < 2 ∧ mooreRef g r c < 9 ∧
    (cell (step g) r c = 0 ∨ cell (step g) r c = 1) ∧
    Dims (step g) H W := by
  have hH : 0 < H := by omega
  have hWp : 0 < W := by omega
  have hh : height g = H := hd.1
  have hw : width g = W := width_of_dims hd hH
  have t : ∀ i j, i < H → j < W → cell g i j ≤ 1 := by
    intro i j hi hj
    rcases hbits i hi j hj with h | h <;> omega
  have b1 : (r + H - 1) % H < H := Nat.mod_lt _ hH
  have b2 : (r + 1) % H < H := Nat.mod_lt _ hH
  have b3 : (c + W - 1) % W < W := Nat.mod_lt _ hWp
  have b4 : (c + 1) % W < W := Nat.mod_lt _ hWp
  have hm : mooreRef g r c ≤ 8 := by
    unfold mooreRef
    rw [hh, hw]
    have u1 := t _ _ b1 hc
    have u2 := t _ _ b2 hc
    have u3 := t _ _ hr b3
    have u4 := t _ _ hr b4
    have u5 := t _ _ b1 b3
    have u6 := t _ _ b1 b4
    have u7 := t _ _ b2 b3
    have u8 := t _ _ b2 b4
    omega
  refine ⟨hm, ?_, by omega, ?_, dims_step hd⟩
  · rcases hbits r hr c hc with h | h <;> omega
  · rw [cell_step hd hr hc]
    exact ruleLookup_bit _ _

/-- Witness for C4 on the 2×2 grid with a single live cell at the origin. -/
theorem step_safety_witness :
    mooreRef sampleGrid 0 0 ≤ 8 ∧
    cell sampleGrid 0 0 < 2 ∧ mooreRef sampleGrid 0 0 < 9 ∧
    (cell (step sampleGrid) 0 0 = 0 ∨ cell (step sampleGrid) 0 0 = 1) ∧
    Dims (step sampleGrid) 2 2 :=
  step_safety (H := 2) (W := 2) (by decide) (by decide) (by decide) (by decide)

/-- Claim C5: `step` is a pure function of the input grid, so two
independent applications to the same grid give identical outputs. -/
theorem step_deterministic (g : Grid) : step g = step g := rfl

theorem dims_blockGrid (H W r0 c0 : Nat) : Dims (blockGrid H W r0 c0) H W := by
  refine ⟨by simp [blockGrid], ?_⟩
  intro row hrow
  simp only [blockGrid, List.mem_map] at hrow
  obtain ⟨r, hr, rfl⟩ := hrow
  simp

theorem cell_blockGrid {H W r0 c0 r c : Nat} (hr : r < H) (hc : c < W) :
    cell (blockGrid H W r0 c0) r c = indBlock r0 r * indBlock c0 c := by
  have h1 : (blockGrid H W r0 c0).getD r [] =
      (List.range W).map (fun (c : Nat) =>
        if (r = r0 ∨ r = r0 + 1) ∧ (c = c0 ∨ c = c0 + 1) then 1 else 0) := by
    unfold blockGrid
    rw [List.getD_eq_getElem _ _ (by simpa using hr)]
    simp only [List.getElem_map, List.getElem_range]
  have h2 : ((List.range W).map (fun (c : Nat) =>
      if (r = r0 ∨ r = r0 + 1) ∧ (c = c0 ∨ c = c0 + 1) then 1 else 0)).getD c 0 =
      if (r = r0 ∨ r = r0 + 1) ∧ (c = c0 ∨ c = c0 + 1) then 1 else 0 := by
    rw [List.getD_eq_getElem _ _ (by simpa using hc)]
    simp only [List.getElem_map, List.getElem_range]
  unfold cell
  rw [h1, h2]
  unfold indBlock
  split_ifs <;> simp_all

theorem indBlock_triple {H r0 x : Nat} (hH : 4 ≤ H) (hx : x < H) (hr0 : r0 + 1 < H) :
    indBlock r0 ((x + H - 1) % H) + indBlock r0 x + indBlock r0 ((x + 1) % H) ≤ 2 ∧
    ((x = r0 ∨ x = r0 + 1) →
      indBlock r0 ((x + H - 1) % H) + indBlock r0 x + indBlock r0 ((x + 1) % H) = 2) := by
  have e1 : (x = 0 ∧ (x + H - 1) % H = H - 1) ∨
      (x ≠ 0 ∧ (x + H - 1) % H = x - 1) := by
    rcases eq_or_ne x 0 with h | h
    · refine .inl ⟨h, ?_⟩
      rw [h, Nat.zero_add]
      exact Nat.mod_eq_of_lt (by omega)
    · refine .inr ⟨h, ?_⟩
      rw [show x + H - 1 = (x - 1) + H by omega, Nat.add_mod_right]
      exact Nat.mod_eq_of_lt (by omega)
  have e2 : (x = H - 1 ∧ (x + 1) % H = 0) ∨
      (x ≠ H - 1 ∧ (x + 1) % H = x + 1) := by
    rcases eq_or_ne x (H - 1) with h | h
    · refine .inl ⟨h, ?_⟩
      rw [h, show H - 1 + 1 = H by omega, Nat.mod_self]
    · refine .inr ⟨h, ?_⟩
      exact Nat.mod_eq_of_lt (by omega)
  unfold indBlock
  constructor
  · split_ifs <;> omega
  · intro hx0
    split_ifs <;> omega

theorem mooreRef_blockGrid {H W r0 c0 r c : Nat} (hH : 4 ≤ H) (hW : 4 ≤ W)
    (hr : r < H) (hc : c < W) :
    mooreRef (blockGrid H W r0 c0) r c =
      (indBlock r0 ((r + H - 1) % H) + indBlock r0 r + indBlock r0 ((r + 1) % H)) *
      (indBlock c0 ((c + W - 1) % W) + indBlock c0 c + indBlock c0 ((c + 1) % W)) -
      indBlock r0 r * indBlock c0 c := by
  have hd := dims_blockGrid H W r0 c0
  have hh : height (blockGrid H W r0 c0) = H := hd.1
  have hw : width (blockGrid H W r0 c0) = W := width_of_dims hd (by omega)
  have b1 : (r + H - 1) % H < H := Nat.mod_lt _ (by omega)
  have b2 : (r + 1) % H < H := Nat.mod_lt _ (by omega)
  have b3 : (c + W - 1) % W < W := Nat.mod_lt _ (by omega)
  have b4 : (c + 1) % W < W := Nat.mod_lt _ (by omega)
  unfold mooreRef
  rw [hh, hw]
  rw [cell_blockGrid b1 hc, cell_blockGrid b2 hc, cell_blockGrid hr b3,
    cell_blockGrid hr b4, cell_blockGrid b1 b3, cell_blockGrid b1 b4,
    cell_blockGrid b2 b3, cell_blockGrid b2 b4]
  have hp : (indBlock r0 ((r + H - 1) % H) + indBlock r0 r + indBlock r0 ((r + 1) % H)) *
      (indBlock c0 ((c + W - 1) % W) + indBlock c0 c + indBlock c0 ((c + 1) % W)) =
      (indBlock r0 ((r + H - 1) % H) * indBlock c0 c +
       indBlock r0 ((r + 1) % H) * indBlock c0 c +
       indBlock r0 r * indBlock c0 ((c + W - 1) % W) +
       indBlock r0 r * indBlock c0 ((c + 1) % W) +
       indBlock r0 ((r + H - 1) % H) * indBlock c0 ((c + W - 1) % W) +
       indBlock r0 ((r + H - 1) % H) * indBlock c0 ((c + 1) % W) +
       indBlock r0 ((r + 1) % H) * indBlock c0 ((c + W - 1) % W) +
       indBlock r0 ((r + 1) % H) * indBlock c0 ((c + 1) % W)) +
      indBlock r0 r * indBlock c0 c := by ring
  rw [hp]
  omega

theorem ruleLookup_dead {n : Nat} (h : n ≠ 3) : ruleLookup 0 n = 0 := by
  rcases Nat.lt_or_ge n 9 with hn | hn
  · interval_cases n <;> simp_all [ruleLookup, rules]
  · have hl : (rules.getD 0 []).length ≤ n := by
      simp [rules]
      omega
    exact List.getD_eq_default _ _ hl

theorem mul_ne_three : ∀ s, s ≤ 2 → ∀ t, t ≤ 2 → s * t ≠ 3 := by decide

theorem cell_step_blockGrid {H W r0 c0 r c : Nat} (hH : 4 ≤ H) (hW : 4 ≤ W)
    (hr0 : r0 + 1 < H) (hc0 : c0 + 1 < W) (hr : r < H) (hc : c < W) :
    cell (step (blockGrid H W r0 c0)) r c = cell (blockGrid H W r0 c0) r c := by
  have hd := dims_blockGrid H W r0 c0
  rw [cell_step hd hr hc, mooreRef_blockGrid hH hW hr hc, cell_blockGrid hr hc]
  obtain ⟨hA, hA2⟩ := indBlock_triple hH hr hr0
  obtain ⟨hB, hB2⟩ := indBlock_triple hW hc hc0
  by_cases hR : r = r0 ∨ r = r0 + 1 <;> by_cases hC : c = c0 ∨ c = c0 + 1
  · have eA : indBlock r0 r = 1 := if_pos hR
    have eB : indBlock c0 c = 1 := if_pos hC
    rw [hA2 hR, hB2 hC, eA, eB]
    decide
  · have eA : indBlock r0 r = 1 := if_pos hR
    have eB : indBlock c0 c = 0 := if_neg hC
    rw [eA] at hA
    rw [eB] at hB
    rw [eA, eB]
    simp only [Nat.mul_zero, Nat.sub_zero]
    exact ruleLookup_dead (mul_ne_three _ hA _ hB)
  · have eA : indBlock r0 r = 0 := if_neg hR
    have eB : indBlock c0 c = 1 := if_pos hC
    rw [eA] at hA
    rw [eB] at hB
    rw [eA, eB]
    simp only [Nat.zero_mul, Nat.sub_zero]
    exact ruleLookup_dead (mul_ne_three _ hA _ hB)
  · have eA : indBlock r0 r = 0 := if_neg hR
    have eB : indBlock c0 c = 0 := if_neg hC
    rw [eA] at hA
    rw [eB] at hB
    rw [eA, eB]
    simp only [Nat.mul_zero, Nat.sub_zero]
    exact ruleLookup_dead (mul_ne_three _ hA _ hB)

/-- Claim C6: any grid whose only live cells are a single (non-wrapping)
2×2 block, in dimensions at least 4×4, is a fixed point of `step`. -/
theorem block_still_life {H W r0 c0 : Nat} (hH : 4 ≤ H) (hW : 4 ≤ W)
    (hr0 : r0 + 1 < H) (hc0 : c0 + 1 < W) :
    step (blockGrid H W r0 c0) = blockGrid H W r0 c0 := by
  have hd := dims_blockGrid H W r0 c0
  have hds := dims_step hd
  apply List.ext_getElem
  · rw [hds.1, hd.1]
  · intro i h1 h2
    have hi : i < H := by rw [hds.1] at h1; exact h1
    apply List.ext_getElem
    · rw [hds.2 _ (List.getElem_mem h1), hd.2 _ (List.getElem_mem h2)]
    · intro j hj1 hj2
      have hjW : j < W := by
        have := hds.2 _ (List.getElem_mem h1)
        omega
      rw [getElem_eq_cell h1 hj1, getElem_eq_cell h2 hj2]
      exact cell_step_blockGrid hH hW hr0 hc0 hi hjW

/-- Witness for C6: the 2×2 block at `(1,1)` on a 4×4 grid. -/
theorem block_still_life_witness :
    step (blockGrid 4 4 1 1) = blockGrid 4 4 1 1 :=
  block_still_life (by decide) (by decide) (by decide) (by decide)

/-- Counterexample to C7 as stated: invoked with no pattern argument, the
prologue prints the valid pattern set and exits, but `sys.exit()` gives exit
code 0, so the exit code is not non-zero. -/
theorem usage_exit_code_zero_counterexample :
    parseArgs ["make_img.py"] = ArgResult.exit 0 valid_patterns ∧
    ¬ ∀ code printed, parseArgs ["make_img.py"] = ArgResult.exit code printed →
      code ≠ 0 :=
  ⟨rfl, fun h => h 0 valid_patterns rfl rfl⟩

/-- Claim C7 (amended): on a missing or unsupported (case-insensitive)
pattern argument the prologue reports the valid pattern set and terminates
before any simulation — but with exit code 0, not non-zero. -/
theorem usage_error_exits_before_run (args : List String)
    (h : args.length ≠ 2 ∨ ¬ valid_patterns.contains (args.getD 1 "").toUpper) :
    parseArgs args = ArgResult.exit 0 valid_patterns := by
  unfold parseArgs
  rcases h with h | h
  · rw [if_pos h]
  · by_cases h2 : args.length ≠ 2
    · rw [if_pos h2]
    · rw [if_neg h2, if_pos h]

/-- Witness for C7 (amended) on an invocation with no pattern argument. -/
theorem usage_error_exits_before_run_witness :
    parseArgs ["make_img.py"] = ArgResult.exit 0 valid_patterns :=
  usage_error_exits_before_run ["make_img.py"] (.inl (by decide))

/-- Counterexample to C8 as stated: seeding the 3×3 zero grid at `(-1, 0)`
does not fail; numpy integer indexing silently wraps it to row `H-1`. -/
theorem seed_negative_index_counterexample :
    (setCell (initGrid 3) (-1) 0).isSome = true ∧
    setCell (initGrid 3) (-1) 0 = setCell (initGrid 3) 2 0 := by decide

theorem npIndex_of_lt {n i : Nat} (hi : i < n) : npIndex n (i : Int) = some i := by
  unfold npIndex
  rw [if_pos ⟨by omega, by omega⟩]
  simp [Int.toNat_natCast]

theorem dims_setCell {g : Grid} {H W : Nat} (hd : Dims g H W) {i j : Nat}
    (hi : i < H) (hj : j < W) :
    setCell g (i : Int) (j : Int) =
      some (g.set i ((g.getD i []).set j 1)) ∧
    Dims (g.set i ((g.getD i []).set j 1)) H W := by
  have hH : 0 < H := by omega
  constructor
  · unfold setCell
    rw [show height g = H from hd.1, width_of_dims hd hH,
      npIndex_of_lt hi, npIndex_of_lt hj]
  · constructor
    · rw [List.length_set]
      exact hd.1
    · intro row hrow
      rcases List.mem_or_eq_of_mem_set hrow with h | h
      · exact hd.2 _ h
      · subst h
        rw [List.length_set]
        have hig : i < g.length := by rw [hd.1]; exact hi
        rw [List.getD_eq_getElem _ _ hig]
        exact hd.2 _ (List.getElem_mem hig)

theorem cell_set_self {g : Grid} {H W : Nat} (hd : Dims g H W) {i j : Nat}
    (hi : i < H) (hj : j < W) :
    cell (g.set i ((g.getD i []).set j 1)) i j = 1 := by
  have hig : i < g.length := by rw [hd.1]; exact hi
  have h1 : (g.set i ((g.getD i []).set j 1)).getD i [] =
      (g.getD i []).set j 1 := by
    rw [List.getD_eq_getElem _ _ (by rw [List.length_set]; exact hig)]
    exact List.getElem_set_self _
  have hjg : j < ((g.getD i []).set j 1).length := by
    rw [List.length_set, List.getD_eq_getElem _ _ hig,
      hd.2 _ (List.getElem_mem hig)]
    exact hj
  unfold cell
  rw [h1, List.getD_eq_getElem _ _ hjg]
  exact List.getElem_set_self _

/-- Claim C8 (amended): on a rectangular `H × W` grid, seeding at `(0,0)`
and `(H-1, W-1)` succeeds and sets those cells ALIVE, and seeding at
`(H, 0)` raises `IndexError` — but seeding at `(-1, 0)` does not fail:
numpy integer indexing silently wraps it to `(H-1, 0)`. -/
theorem seed_bounds {g : Grid} {H W : Nat} (hd : Dims g H W)
    (hH : 0 < H) (hW : 0 < W) :
    (∃ g1, setCell g 0 0 = some g1 ∧ cell g1 0 0 = 1) ∧
    (∃ g2, setCell g ((H : Int) - 1) ((W : Int) - 1) = some g2 ∧
      cell g2 (H - 1) (W - 1) = 1) ∧
    setCell g (H : Int) 0 = none ∧
    setCell g (-1) 0 = setCell g ((H : Int) - 1) 0 := by
  have e1 : ((H : Int) - 1) = ((H - 1 : Nat) : Int) := by omega
  have e2 : ((W : Int) - 1) = ((W - 1 : Nat) : Int) := by omega
  refine ⟨?_, ?_, ?_, ?_⟩
  · obtain ⟨e, hdims⟩ := dims_setCell hd (show 0 < H from hH) (show 0 < W from hW)
    exact ⟨_, e, cell_set_self hd hH hW⟩
  · rw [e1, e2]
    obtain ⟨e, hdims⟩ :=
      dims_setCell hd (show H - 1 < H by omega) (show W - 1 < W by omega)
    exact ⟨_, e, cell_set_self hd (by omega) (by omega)⟩
  · unfold setCell npIndex
    rw [show height g = H from hd.1]
    rw [if_neg (by omega), if_neg (by omega)]
  · have hneg : npIndex H (-1) = some (H - 1) := by
      unfold npIndex
      rw [if_neg (by omega), if_pos ⟨by omega, by omega⟩]
      congr 1
      omega
    have hlast : npIndex H ((H : Int) - 1) = some (H - 1) := by
      rw [e1]
      exact npIndex_of_lt (by omega)
    unfold setCell
    rw [show height g = H from hd.1, hneg, hlast]

/-- Witness for C8 (amended) on the 3×3 zero grid. -/
theorem seed_bounds_witness :
    (∃ g1, setCell (initGrid 3) 0 0 = some g1 ∧ cell g1 0 0 = 1) ∧
    (∃ g2, setCell (initGrid 3) ((3 : Int) - 1) ((3 : Int) - 1) = some g2 ∧
      cell g2 (3 - 1) (3 - 1) = 1) ∧
    setCell (initGrid 3) (3 : Int) 0 = none ∧
    setCell (initGrid 3) (-1) 0 = setCell (initGrid 3) ((3 : Int) - 1) 0 :=
  seed_bounds (H := 3) (W := 3) (by decide) (by decide) (by decide)

/-- Counterexample to C9 as stated: the first emitted frame is not the
generation-0 seed grid — the callback steps the grid before emitting, so the
seed (a lone live cell here) is never shown. -/
theorem first_frame_not_seed_counterexample :
    runFrames sampleGrid 1 = [step sampleGrid] ∧
    (runFrames sampleGrid 1).headD [] ≠ sampleGrid := by decide

/-- Claim C9 (amended): a run with frame count `F` performs exactly `F`
stepper invocations, and the `i`-th emitted frame (0-based) is the grid
after `i + 1` steps: generations `1, 2, …, F`, strictly increasing — the
generation-0 seed grid is never emitted. -/
theorem frames_are_post_step (g : Grid) (F : Nat) :
    (runFrames g F).length = F ∧
    ∀ i, i < F → (runFrames g F).getD i [] = stepIter (i + 1) g := by
  induction F generalizing g with
  | zero => exact ⟨rfl, by omega⟩
  | succ F ih =>
    refine ⟨by simp [runFrames, (ih (step g)).1], ?_⟩
    intro i hi
    cases i with
    | zero => rfl
    | succ j => exact (ih (step g)).2 j (by omega)

/-- Witness for C9 (amended) at the sample grid with two frames. -/
theorem frames_are_post_step_witness :
    (runFrames sampleGrid 2).length = 2 ∧
    ∀ i, i < 2 → (runFrames sampleGrid 2).getD i [] = stepIter (i + 1) sampleGrid :=
  frames_are_post_step sampleGrid 2

theorem seedCells_total {H W : Nat} :
    ∀ (cells : List (Nat × Nat)) (g : Grid), Dims g H W →
      (∀ p ∈ cells, p.1 < H ∧ p.2 < W) →
      ∃ g2, seedCells g cells = some g2 ∧ Dims g2 H W := by
  intro cells
  induction cells with
  | nil => exact fun g hd _ => ⟨g, rfl, hd⟩
  | cons p rest ih =>
    intro g hd hb
    obtain ⟨i, j⟩ := p
    obtain ⟨h1, h2⟩ := hb (i, j) (List.mem_cons_self _ _)
    obtain ⟨e, hdims⟩ := dims_setCell hd h1 h2
    obtain ⟨g2, e2, hd2⟩ :=
      ih _ hdims (fun q hq => hb q (List.mem_cons_of_mem _ hq))
    refine ⟨g2, ?_, hd2⟩
    unfold seedCells
    rw [e]
    exact e2

theorem dims_initGrid (n : Nat) : Dims (initGrid n) n n := by
  refine ⟨List.length_replicate _ _, ?_⟩
  intro row hrow
  rw [List.eq_of_mem_replicate hrow]
  exact List.length_replicate _ _

/-- Claim C10: every coordinate in both pattern catalogs is inside the
100×100 grid, so seeding the initial grid with either pattern touches only
in-bounds cells and raises no error. -/
theorem pattern_catalogs_in_bounds :
    (∀ p ∈ shuttle_cells, p.1 < GRID_SIZE ∧ p.2 < GRID_SIZE) ∧
    (∀ p ∈ brain_cells, p.1 < GRID_SIZE ∧ p.2 < GRID_SIZE) ∧
    (∃ g, seedCells (initGrid GRID_SIZE) shuttle_cells = some g) ∧
    (∃ g, seedCells (initGrid GRID_SIZE) brain_cells = some g) := by
  have hb1 : ∀ p ∈ shuttle_cells, p.1 < GRID_SIZE ∧ p.2 < GRID_SIZE := by decide
  have hb2 : ∀ p ∈ brain_cells, p.1 < GRID_SIZE ∧ p.2 < GRID_SIZE := by decide
  refine ⟨hb1, hb2, ?_, ?_⟩
  · obtain ⟨g2, e, _⟩ :=
      seedCells_total shuttle_cells (initGrid GRID_SIZE)
        (dims_initGrid GRID_SIZE) hb1
    exact ⟨g2, e⟩
  · obtain ⟨g2, e, _⟩ :=
      seedCells_total brain_cells (initGrid GRID_SIZE)
        (dims_initGrid GRID_SIZE) hb2
    exact ⟨g2, e⟩

end QRITTERS
